import Mathlib

/-!
Verification of the BearCart dashboard record-cleaning and metrics-aggregation
engine, shallowly embedded from the repository source.

The functions below are translated from:
* `src/client/src/components/dashboard/sections/Traffic.jsx` (`calculateMetrics`)
* `src/client/src/hooks/useDashBoardData.js` (row limiting and error boundaries)

JavaScript objects used as key/value accumulators are modelled as association
lists `List (String × β)` in insertion order (matching the string-key
enumeration order of JS objects); JS `Set` is modelled as an insertion-ordered
duplicate-free `List`; JS numbers arising from division are modelled as `ℚ`;
fields that the code guards for `undefined` are modelled as `Option`.
-/

namespace BearCart

instance exceptDecEq [DecidableEq ε] [DecidableEq α] : DecidableEq (Except ε α) :=
  fun x y =>
    match x, y with
    | .ok a, .ok b => decidable_of_iff (a = b) (by simp)
    | .error a, .error b => decidable_of_iff (a = b) (by simp)
    | .ok _, .error _ => isFalse (by simp)
    | .error _, .ok _ => isFalse (by simp)

/-- Cleaned website-session record, with exactly the fields read by
`calculateMetrics` in `Traffic.jsx` (plus the session id, which joins to
`Pageview.website_session_id`).  Fields whose absence the code tolerates
(via `?.` or `||` or a throwing access) are `Option`-valued. -/
structure Session where
  id : String
  user_id : String
  created_at : Option String
  device_type : Option String
  is_repeat_session : String
  utm_source : Option String
  utm_campaign : Option String
deriving DecidableEq, Repr

/-- Cleaned website-pageview record: the fields read by `calculateMetrics`. -/
structure Pageview where
  website_session_id : String
  pageview_url : Option String
deriving DecidableEq, Repr

/-- JS `Set.add`: append the element iff it is not already present
(insertion-ordered set representation). -/
def insertIfAbsent (acc : List String) (x : String) : List String :=
  if x ∈ acc then acc else acc ++ [x]

/-- The contents of a JS `Set` built by repeated `add` over a list. -/
def distinctList (l : List String) : List String :=
  l.foldl insertIfAbsent []

/-- JS `acc[k] = upd(acc[k] or init)` on an object modelled as an association
list: update the entry in place when the key is present, else append a fresh
entry at the end (string-keyed JS objects preserve insertion order). -/
def upsertG (keyOf : α → String) (init0 : String → β) (step : β → α → β) :
    List (String × β) → α → List (String × β)
  | [], x => [(keyOf x, step (init0 (keyOf x)) x)]
  | (k, b) :: rest, x =>
    if keyOf x = k then (k, step b x) :: rest
    else (k, b) :: upsertG keyOf init0 step rest x

/-- A JS `reduce` that groups list elements into an object keyed by
`keyOf`, starting each bucket at `init0` and folding each element of the
bucket with `step`. -/
def groupFold (keyOf : α → String) (init0 : String → β) (step : β → α → β)
    (l : List α) : List (String × β) :=
  l.foldl (upsertG keyOf init0 step) []

namespace Traffic

/-- Modelled from the spec: the JS builtin `String.prototype.toLowerCase`
(a platform builtin, not repository code), on the basic-latin letters the
device-type and date fields use. -/
def toLowerStr (s : String) : String :=
  ⟨s.data.map Char.toLower⟩

/-- `session.device_type?.toLowerCase() || 'unknown'` (Traffic.jsx line 17). -/
def deviceOf (s : Session) : String :=
  match s.device_type with
  | none => "unknown"
  | some d => if toLowerStr d = "" then "unknown" else toLowerStr d

/-- `session.utm_source || 'direct'` (Traffic.jsx line 40). -/
def sourceOf (s : Session) : String :=
  match s.utm_source with
  | none => "direct"
  | some u => if u = "" then "direct" else u

/-- `session.utm_campaign || 'none'` (Traffic.jsx line 57). -/
def campaignOf (s : Session) : String :=
  match s.utm_campaign with
  | none => "none"
  | some c => if c = "" then "none" else c

/-- `pv.pageview_url || '/'` (Traffic.jsx line 91). -/
def urlOf (pv : Pageview) : String :=
  match pv.pageview_url with
  | none => "/"
  | some u => if u = "" then "/" else u

/-- `sessions.length` (Traffic.jsx line 10). -/
def totalSessions (sessions : List Session) : Nat :=
  sessions.length

/-- `new Set(sessions.map(s => s.user_id)).size` (Traffic.jsx line 13). -/
def uniqueUsers (sessions : List Session) : Nat :=
  (distinctList (sessions.map (·.user_id))).length

/-- The `deviceCounts` reduce (Traffic.jsx lines 16-20). -/
def deviceCounts (sessions : List Session) : List (String × Nat) :=
  groupFold deviceOf (fun _ => 0) (fun n _ => n + 1) sessions

/-- `sessions.filter(s => s.is_repeat_session === "0").length`
(Traffic.jsx line 23). -/
def newSessions (sessions : List Session) : Nat :=
  (sessions.filter (fun s => s.is_repeat_session = "0")).length

/-- `sessions.filter(s => s.is_repeat_session === "1").length`
(Traffic.jsx line 24). -/
def returningSessions (sessions : List Session) : Nat :=
  (sessions.filter (fun s => s.is_repeat_session = "1")).length

/-- The `sessionPageviewCounts` reduce keyed by `pv.website_session_id`
(Traffic.jsx lines 27-30). -/
def sessionPageviewCounts (pageviews : List Pageview) : List (String × Nat) :=
  groupFold (·.website_session_id) (fun _ => 0) (fun n _ => n + 1) pageviews

/-- `Object.values(sessionPageviewCounts).filter(count => count === 1).length`
(Traffic.jsx line 32). -/
def bouncedSessions (pageviews : List Pageview) : Nat :=
  (((sessionPageviewCounts pageviews).map Prod.snd).filter (· = 1)).length

/-- `totalSessions > 0 ? (bouncedSessions / totalSessions) * 100 : 0`
(Traffic.jsx line 33). -/
def bounceRate (sessions : List Session) (pageviews : List Pageview) : ℚ :=
  if 0 < totalSessions sessions then
    ((bouncedSessions pageviews : ℚ) / (totalSessions sessions : ℚ)) * 100
  else 0

/-- `totalSessions > 0 ? pageviews.length / totalSessions : 0`
(Traffic.jsx line 36). -/
def avgPagesPerSession (sessions : List Session) (pageviews : List Pageview) : ℚ :=
  if 0 < totalSessions sessions then
    (pageviews.length : ℚ) / (totalSessions sessions : ℚ)
  else 0

/-- The `trafficBySource` reduce (Traffic.jsx lines 39-47): per source a
session counter and a `Set` of user ids.  Creating the zero bucket and then
immediately applying `+= 1` / `.add` is collapsed into a single upsert step. -/
def trafficBySource (sessions : List Session) : List (String × (Nat × List String)) :=
  groupFold sourceOf (fun _ => (0, []))
    (fun p s => (p.1 + 1, insertIfAbsent p.2 s.user_id)) sessions

/-- One row of `sourceData`: `{ source, sessions, users: users.size }`. -/
structure SourceEntry where
  source : String
  sessions : Nat
  users : Nat
deriving DecidableEq, Repr

/-- `Object.values(trafficBySource).map(...)` (Traffic.jsx lines 49-53). -/
def sourceData (sessions : List Session) : List SourceEntry :=
  (trafficBySource sessions).map (fun p => ⟨p.1, p.2.1, p.2.2.length⟩)

/-- One row of `campaignData`: `{ campaign, sessions }`. -/
structure CampaignEntry where
  campaign : String
  sessions : Nat
deriving DecidableEq, Repr

/-- The `trafficByCampaign` reduce (Traffic.jsx lines 56-63). -/
def trafficByCampaign (sessions : List Session) : List (String × Nat) :=
  groupFold campaignOf (fun _ => 0) (fun n _ => n + 1) sessions

/-- `Object.values(trafficByCampaign)` (Traffic.jsx line 65). -/
def campaignData (sessions : List Session) : List CampaignEntry :=
  (trafficByCampaign sessions).map (fun p => ⟨p.1, p.2⟩)

/-- Whether a character is a decimal digit (code point between 48 and 57). -/
def isDigitChar (c : Char) : Bool :=
  decide (48 ≤ c.toNat) && decide (c.toNat ≤ 57)

/-- Value of a decimal digit character. -/
def digitVal (c : Char) : Nat := c.toNat - 48

/-- Leap-year test of the Gregorian calendar. -/
def isLeap (y : Nat) : Bool := y % 4 = 0 && (y % 100 ≠ 0 || y % 400 = 0)

/-- Number of days of month `m` of year `y`. -/
def daysInMonth (y m : Nat) : Nat :=
  if m = 2 then (if isLeap y then 29 else 28)
  else if m = 4 ∨ m = 6 ∨ m = 9 ∨ m = 11 then 30 else 31

/-- Whether a character list is a calendar date in canonical ISO form
`YYYY-MM-DD` (the only form accepted below as a valid JS `Date` key). -/
def isCanonicalDate (l : List Char) : Bool :=
  match l with
  | [y1, y2, y3, y4, h1, m1, m2, h2, d1, d2] =>
    isDigitChar y1 && isDigitChar y2 && isDigitChar y3 && isDigitChar y4 &&
    h1 == '-' && h2 == '-' && isDigitChar m1 && isDigitChar m2 &&
    isDigitChar d1 && isDigitChar d2 &&
    (let y := ((digitVal y1 * 10 + digitVal y2) * 10 + digitVal y3) * 10 + digitVal y4
     let m := digitVal m1 * 10 + digitVal m2
     let d := digitVal d1 * 10 + digitVal d2
     decide (1 ≤ m) && decide (m ≤ 12) && decide (1 ≤ d) && decide (d ≤ daysInMonth y m))
  | _ => false

/-- Chronologically ordered numeric key of a canonical `YYYY-MM-DD`
character list (`0` on any other list). -/
def dateKeyVal (l : List Char) : Nat :=
  match l with
  | [y1, y2, y3, y4, _, m1, m2, _, d1, d2] =>
    ((((digitVal y1 * 10 + digitVal y2) * 10 + digitVal y3) * 10 + digitVal y4) * 100
      + (digitVal m1 * 10 + digitVal m2)) * 100 + (digitVal d1 * 10 + digitVal d2)
  | _ => 0

/-- Modelled from the spec: `new Date(dateString)` of the host JS engine
(a platform builtin, not repository code), restricted to date keys in
canonical ISO `YYYY-MM-DD` form, for which the chronological order of the
parsed `Date` values agrees with the numeric order of `dateKeyVal`;
any other string is treated as unparseable. -/
def parseDateKey (s : String) : Option Nat :=
  if isCanonicalDate s.data then some (dateKeyVal s.data) else none

/-- Comparison key used by the `timelineData` sort. -/
def dateVal (s : String) : Nat := (parseDateKey s).getD 0

/-- Characters before the first space: the JS `split(' ')[0]` of a string
whose characters are `l`. -/
def takeUntilSpace : List Char → List Char
  | [] => []
  | c :: cs => if c = ' ' then [] else c :: takeUntilSpace cs

/-- `session.created_at.split(' ')[0]` (Traffic.jsx line 69), as a total
function; `trafficByDate` only applies it after checking `created_at`
is present. -/
def dateKeyOf (s : Session) : String :=
  ⟨takeUntilSpace (s.created_at.getD "").data⟩

/-- Per-date accumulator update (Traffic.jsx lines 73-78): total, desktop
and mobile session counters; note the desktop/mobile tests compare the raw
lower-cased `device_type` (no `'unknown'` defaulting here). -/
def dateStep (p : Nat × Nat × Nat) (s : Session) : Nat × Nat × Nat :=
  (p.1 + 1,
   p.2.1 + (if s.device_type.map toLowerStr = some "desktop" then 1 else 0),
   p.2.2 + (if s.device_type.map toLowerStr = some "mobile" then 1 else 0))

/-- The grouping part of the `trafficByDate` reduce, applicable once every
`created_at` is known to be present. -/
def trafficByDateA (sessions : List Session) : List (String × (Nat × Nat × Nat)) :=
  groupFold dateKeyOf (fun _ => (0, 0, 0)) dateStep sessions

/-- The `trafficByDate` reduce (Traffic.jsx lines 68-80).
`session.created_at.split` is an unguarded member access: when any
session's `created_at` is `undefined` the reduce throws a `TypeError`
(the JS throw at the first offending session and this all-sessions check
are observationally equal: an error escapes iff some session lacks
`created_at`, and the partial accumulator is discarded either way). -/
def trafficByDate (sessions : List Session) :
    Except String (List (String × (Nat × Nat × Nat))) :=
  if sessions.all (fun s => s.created_at.isSome) then .ok (trafficByDateA sessions)
  else .error "TypeError: cannot read properties of undefined"

/-- One row of `timelineData`: `{ date, sessions, desktop, mobile }`. -/
structure DateEntry where
  date : String
  sessions : Nat
  desktop : Nat
  mobile : Nat
deriving DecidableEq, Repr

/-- Builds a `DateEntry` from a grouped `trafficByDate` row. -/
def mkDateEntry (p : String × (Nat × Nat × Nat)) : DateEntry :=
  ⟨p.1, p.2.1, p.2.2.1, p.2.2.2⟩

/-- The comparator `(a, b) => new Date(a.date) - new Date(b.date)`
(Traffic.jsx lines 82-84), as the ordering it induces on parsed date keys. -/
def dateLe (a b : DateEntry) : Prop := dateVal a.date ≤ dateVal b.date

instance : DecidableRel dateLe := fun _ _ => Nat.decLe _ _

instance : IsTotal DateEntry dateLe := ⟨fun _ _ => Nat.le_total _ _⟩

instance : IsTrans DateEntry dateLe := ⟨fun _ _ _ => Nat.le_trans⟩

/-- `Object.values(trafficByDate).sort(...)` (Traffic.jsx lines 82-84). -/
def timelineData (sessions : List Session) : Except String (List DateEntry) :=
  (trafficByDate sessions).map (fun a => List.insertionSort dateLe (a.map mkDateEntry))

/-- One step of the `landingPages` reduce (Traffic.jsx lines 87-95): the
first pageview seen for each `website_session_id` marks the session as seen
and counts its URL (default `'/'`) in the `pages` object. -/
def landingStep (acc : List String × List (String × Nat)) (pv : Pageview) :
    List String × List (String × Nat) :=
  if pv.website_session_id ∈ acc.1 then acc
  else (acc.1 ++ [pv.website_session_id],
        upsertG id (fun _ => 0) (fun n _ => n + 1) acc.2 (urlOf pv))

/-- The `landingPages` reduce with its `{ sessions: {}, pages: {} }`
accumulator (Traffic.jsx lines 87-95). -/
def landingPages (pageviews : List Pageview) : List String × List (String × Nat) :=
  pageviews.foldl landingStep ([], [])

/-- One row of `topLandingPages`: `{ url, sessions }`. -/
structure PageEntry where
  url : String
  sessions : Nat
deriving DecidableEq, Repr

/-- The ordering induced by the comparator `(a, b) => b.sessions - a.sessions`
(Traffic.jsx line 99): descending session count. -/
def pageDesc (a b : PageEntry) : Prop := b.sessions ≤ a.sessions

instance : DecidableRel pageDesc := fun _ _ => Nat.decLe _ _

instance : IsTotal PageEntry pageDesc := ⟨fun _ _ => Nat.le_total _ _⟩

instance : IsTrans PageEntry pageDesc := ⟨fun _ _ _ h h2 => Nat.le_trans h2 h⟩

/-- `Object.entries(landingPages.pages).map(...).sort(...)`
(Traffic.jsx lines 97-99). -/
def topLandingPages (pageviews : List Pageview) : List PageEntry :=
  List.insertionSort pageDesc ((landingPages pageviews).2.map (fun p => ⟨p.1, p.2⟩))

/-- The subsequence of pageviews that are the first in input order for
their `website_session_id`, given the ids already seen; used to
characterise the `landingPages` reduce. -/
def firstHits : List Pageview → List String → List Pageview
  | [], _ => []
  | pv :: rest, seen =>
    if pv.website_session_id ∈ seen then firstHits rest seen
    else pv :: firstHits rest (seen ++ [pv.website_session_id])

/-- Number of landing-page sessions for URL `u` as the spec words it: the
distinct session ids of `pageviews` whose first pageview in input order
(`List.find?`) has URL `u` (after the `'/'` default). -/
def specLandingCount (u : String) (pageviews : List Pageview) : Nat :=
  ((distinctList (pageviews.map (·.website_session_id))).filter
    (fun k => ((pageviews.find? (fun q => q.website_session_id = k)).map urlOf)
      = some u)).length

/-- Count of `pageviews` rows whose `website_session_id` is `k`. -/
def pageviewCountOf (k : String) (pageviews : List Pageview) : Nat :=
  pageviews.countP (fun pv => pv.website_session_id = k)

/-- Number of distinct session ids appearing in `pageviews` with exactly one
pageview: the spec reading of `bouncedSessions` (session ids are taken from
the pageviews themselves, so ids absent from the sessions array count too). -/
def specBouncedSessions (pageviews : List Pageview) : Nat :=
  ((distinctList (pageviews.map (·.website_session_id))).filter
    (fun k => pageviewCountOf k pageviews = 1)).length

/-- Strict date order with equality: the antisymmetric companion of
`dateLe` used to show sorted timelines of equal content coincide. -/
def dateLt (a b : DateEntry) : Prop := dateVal a.date < dateVal b.date ∨ a = b

instance : IsAntisymm DateEntry dateLt :=
  ⟨fun a b hab hba => by
    rcases hab with h | h
    · rcases hba with h2 | h2
      · exact absurd h2 (Nat.lt_asymm h)
      · exact h2.symm
    · exact h⟩

/-- The object returned by `calculateMetrics` (Traffic.jsx lines 101-113). -/
structure TrafficMetrics where
  totalSessions : Nat
  uniqueUsers : Nat
  bounceRate : ℚ
  avgPagesPerSession : ℚ
  deviceCounts : List (String × Nat)
  newSessions : Nat
  returningSessions : Nat
  sourceData : List SourceEntry
  campaignData : List CampaignEntry
  timelineData : List DateEntry
  topLandingPages : List PageEntry
deriving DecidableEq, Repr

/-- `calculateMetrics` (Traffic.jsx lines 8-114).  The function body has no
`try`/`catch`; the only throwing step is the `trafficByDate` reduce, whose
`TypeError` escapes the whole computation. -/
def calculateMetrics (sessions : List Session) (pageviews : List Pageview) :
    Except String TrafficMetrics :=
  (timelineData sessions).map (fun tl =>
    { totalSessions := totalSessions sessions
      uniqueUsers := uniqueUsers sessions
      bounceRate := bounceRate sessions pageviews
      avgPagesPerSession := avgPagesPerSession sessions pageviews
      deviceCounts := deviceCounts sessions
      newSessions := newSessions sessions
      returningSessions := returningSessions sessions
      sourceData := sourceData sessions
      campaignData := campaignData sessions
      timelineData := tl
      topLandingPages := topLandingPages pageviews })

end Traffic

namespace Dashboard

/-- `const LIMIT_ROWS = 500` (useDashBoardData.js line 27). -/
def LIMIT_ROWS : Nat := 500

/-- `Array.isArray(raw) ? raw.slice(0, LIMIT_ROWS) : []`
(useDashBoardData.js lines 39-56); `none` models a non-array input. -/
def limitRows (raw : Option (List α)) : List α :=
  match raw with
  | some l => l.take LIMIT_ROWS
  | none => []

/-- The six limited arrays handed to the six cleaners, in source order
(useDashBoardData.js lines 39-56): orders, order items, refunds, products,
sessions, pageviews — each capped by the same `LIMIT_ROWS` constant before
cleaning. -/
def limitSix (o : Option (List α₁)) (i : Option (List α₂)) (r : Option (List α₃))
    (p : Option (List α₄)) (s : Option (List α₅)) (v : Option (List α₆)) :
    List α₁ × List α₂ × List α₃ × List α₄ × List α₅ × List α₆ :=
  (limitRows o, limitRows i, limitRows r, limitRows p, limitRows s, limitRows v)

/-- Modelled from the spec: `Order` as consumed by the metric calculators of
`dataCleaners.js` (absent from the sources) — `totalRevenue = Σ order.total_amount`. -/
structure Order where
  total_amount : ℚ
deriving DecidableEq, Repr

/-- Modelled from the spec: `Refund` as consumed by the metric calculators of
`dataCleaners.js` (absent from the sources) — `totalRefunds = Σ refund.amount`. -/
structure Refund where
  amount : ℚ
deriving DecidableEq, Repr

/-- Modelled from the spec: `calculateTotalRevenue` of `dataCleaners.js`
(absent from the sources): `totalRevenue = Σ order.total_amount`. -/
def calculateTotalRevenue (orders : List Order) : ℚ :=
  (orders.map (·.total_amount)).sum

/-- Modelled from the spec: `calculateTotalRefunds` of `dataCleaners.js`
(absent from the sources): `totalRefunds = Σ refund.amount`. -/
def calculateTotalRefunds (refunds : List Refund) : ℚ :=
  (refunds.map (·.amount)).sum

/-- Modelled from the spec: `calculateRefundRate` of `dataCleaners.js`
(absent from the sources): `refundRate = totalRefunds / totalRevenue` when
`totalRevenue > 0`, else `0` (never divide by zero). -/
def calculateRefundRate (orders : List Order) (refunds : List Refund) : ℚ :=
  if 0 < calculateTotalRevenue orders then
    calculateTotalRefunds refunds / calculateTotalRevenue orders
  else 0

/-- The financial-metrics object of the `metrics` memo
(useDashBoardData.js lines 109-120 and its fallback lines 123-134). -/
structure FinMetrics where
  totalOrders : Nat
  totalRevenue : ℚ
  totalRefunds : ℚ
  refundRate : ℚ
  aov : ℚ
  netRevenue : ℚ
  totalSessions : Nat
  totalPageviews : Nat
  totalProducts : Nat
  limited : Nat
deriving DecidableEq, Repr

/-- The zeroed fallback object of the `metrics` `catch` branch
(useDashBoardData.js lines 123-134). -/
def metricsFallback : FinMetrics :=
  ⟨0, 0, 0, 0, 0, 0, 0, 0, 0, LIMIT_ROWS⟩

/-- The `try`/`catch` boundary of the `metrics` memo
(useDashBoardData.js lines 102-136): a throwing computation is replaced by
the zeroed fallback (the error is only logged; the hook's `error` state is
not set by this branch). -/
def metricsBoundary (comp : Except String FinMetrics) : FinMetrics :=
  match comp with
  | .ok m => m
  | .error _ => metricsFallback

/-- The `try`/`catch` boundary shared by the four chart-aggregation memos
(useDashBoardData.js lines 139-173): a throwing aggregation is replaced by
the empty list. -/
def aggBoundary (comp : Except String (List α)) : List α :=
  match comp with
  | .ok l => l
  | .error _ => []

end Dashboard

/-! ### Library lemmas about the JS `Set` model -/

theorem mem_foldl_insertIfAbsent (l : List String) (acc : List String) (a : String) :
    a ∈ l.foldl insertIfAbsent acc ↔ a ∈ acc ∨ a ∈ l := by
  induction l generalizing acc with
  | nil => simp
  | cons x xs ih =>
    rw [List.foldl_cons, ih]
    unfold insertIfAbsent
    by_cases hx : x ∈ acc
    · simp only [if_pos hx, List.mem_cons]
      constructor
      · rintro (h | h) <;> tauto
      · rintro (h | rfl | h) <;> tauto
    · simp only [if_neg hx, List.mem_append, List.mem_singleton, List.mem_cons]
      tauto

theorem nodup_foldl_insertIfAbsent (l : List String) (acc : List String)
    (h : acc.Nodup) : (l.foldl insertIfAbsent acc).Nodup := by
  induction l generalizing acc with
  | nil => simpa
  | cons x xs ih =>
    rw [List.foldl_cons]
    apply ih
    unfold insertIfAbsent
    by_cases hx : x ∈ acc
    · simpa [hx]
    · simp [hx, List.nodup_append, h]

theorem mem_distinctList {l : List String} {a : String} :
    a ∈ distinctList l ↔ a ∈ l := by
  unfold distinctList; rw [mem_foldl_insertIfAbsent]; simp

theorem distinctList_nodup (l : List String) : (distinctList l).Nodup :=
  nodup_foldl_insertIfAbsent l [] List.nodup_nil

theorem distinctList_perm_dedup (l : List String) : (distinctList l).Perm l.dedup :=
  (List.perm_ext_iff_of_nodup (distinctList_nodup l) l.nodup_dedup).2
    (by simp [mem_distinctList, List.mem_dedup])

theorem distinctList_length_of_perm {l₁ l₂ : List String} (h : l₁.Perm l₂) :
    (distinctList l₁).length = (distinctList l₂).length := by
  rw [(distinctList_perm_dedup l₁).length_eq, (distinctList_perm_dedup l₂).length_eq,
    h.dedup.length_eq]

theorem distinctList_perm_of_perm {l₁ l₂ : List String} (h : l₁.Perm l₂) :
    (distinctList l₁).Perm (distinctList l₂) :=
  (List.perm_ext_iff_of_nodup (distinctList_nodup l₁) (distinctList_nodup l₂)).2
    (by simp [mem_distinctList, h.mem_iff])

theorem nodup_subset_length {l m : List String} (hN : l.Nodup) (hsub : l ⊆ m) :
    l.length ≤ m.length :=
  (List.subperm_of_subset hN hsub).length_le

theorem distinctList_length_le (l : List String) :
    (distinctList l).length ≤ l.length :=
  nodup_subset_length (distinctList_nodup l) (fun _ ha => mem_distinctList.1 ha)

theorem insertIfAbsent_length_le (acc : List String) (x : String) :
    (insertIfAbsent acc x).length ≤ acc.length + 1 := by
  unfold insertIfAbsent; split <;> simp

theorem distinctList_concat (l : List String) (k : String) :
    distinctList (l ++ [k]) = insertIfAbsent (distinctList l) k := by
  simp [distinctList, List.foldl_append]

/-! ### Characterisation of the JS object-grouping reduce -/

theorem upsertG_of_forall_ne (keyOf : α → String) (init0 : String → β)
    (step : β → α → β) (acc : List (String × β)) (x : α)
    (h : ∀ p ∈ acc, p.1 ≠ keyOf x) :
    upsertG keyOf init0 step acc x = acc ++ [(keyOf x, step (init0 (keyOf x)) x)] := by
  induction acc with
  | nil => rfl
  | cons p rest ih =>
    obtain ⟨k, b⟩ := p
    have hk : ¬ keyOf x = k := fun he => h (k, b) (by simp) he.symm
    simp [upsertG, hk, ih (fun q hq => h q (List.mem_cons_of_mem _ hq))]

theorem upsertG_map_graph (keyOf : α → String) (init0 : String → β)
    (step : β → α → β) (g : String → β) (K : List String) (x : α)
    (hN : K.Nodup) (hk : keyOf x ∈ K) :
    upsertG keyOf init0 step (K.map (fun k => (k, g k))) x
      = K.map (fun k => (k, if k = keyOf x then step (g k) x else g k)) := by
  induction K with
  | nil => cases hk
  | cons k ks ih =>
    rcases List.mem_cons.1 hk with he | hm
    · subst he
      simp only [List.map_cons, upsertG, if_true]
      congr 1
      refine (List.map_congr_left (fun k' hk' => ?_)).symm
      have hne : ¬ k' = keyOf x := fun he2 => (List.nodup_cons.1 hN).1 (he2 ▸ hk')
      simp [hne]
    · have hxk : ¬ keyOf x = k := fun he =>
        (List.nodup_cons.1 hN).1 (he ▸ hm)
      have hkx : ¬ k = keyOf x := fun he => hxk he.symm
      simp only [List.map_cons, upsertG, if_neg hxk,
        ih (List.nodup_cons.1 hN).2 hm]
      congr 1
      simp [hkx]

theorem groupFold_eq (keyOf : α → String) (init0 : String → β)
    (step : β → α → β) (l : List α) :
    groupFold keyOf init0 step l
      = (distinctList (l.map keyOf)).map
          (fun k => (k, (l.filter (fun x => keyOf x = k)).foldl step (init0 k))) := by
  induction l using List.reverseRecOn with
  | nil => rfl
  | append_singleton l x ih =>
    have hstep : groupFold keyOf init0 step (l ++ [x])
        = upsertG keyOf init0 step (groupFold keyOf init0 step l) x := by
      simp [groupFold, List.foldl_append]
    rw [hstep, ih, List.map_append,
      show List.map keyOf [x] = [keyOf x] from rfl, distinctList_concat]
    by_cases hk : keyOf x ∈ l.map keyOf
    · have hkD : keyOf x ∈ distinctList (l.map keyOf) := mem_distinctList.2 hk
      rw [upsertG_map_graph _ _ _ _ _ _ (distinctList_nodup _) hkD]
      have : insertIfAbsent (distinctList (l.map keyOf)) (keyOf x)
          = distinctList (l.map keyOf) := by simp [insertIfAbsent, hkD]
      rw [this]
      refine List.map_congr_left (fun k hkK => ?_)
      by_cases hke : k = keyOf x
      · subst hke
        simp [List.filter_append, List.foldl_append]
      · have : ¬ (keyOf x = k) := fun h => hke h.symm
        simp [List.filter_append, this, hke]
    · have hkD : keyOf x ∉ distinctList (l.map keyOf) := fun h => hk (mem_distinctList.1 h)
      rw [upsertG_of_forall_ne _ _ _ _ _ (fun p hp => by
        rcases List.mem_map.1 hp with ⟨k, hkK, rfl⟩
        exact fun he => hkD (he ▸ hkK))]
      have : insertIfAbsent (distinctList (l.map keyOf)) (keyOf x)
          = distinctList (l.map keyOf) ++ [keyOf x] := by simp [insertIfAbsent, hkD]
      rw [this, List.map_append]
      congr 1
      · refine List.map_congr_left (fun k hkK => ?_)
        have hne : ¬ (keyOf x = k) := fun he => hkD (he ▸ hkK)
        simp [List.filter_append, hne]
      · have hfil : l.filter (fun y => keyOf y = keyOf x) = [] := by
          rw [List.filter_eq_nil_iff]
          intro y hy
          simp only [decide_eq_true_eq]
          exact fun he => hk (he ▸ List.mem_map_of_mem keyOf hy)
        simp [List.filter_append, hfil]

theorem groupFold_keys (keyOf : α → String) (init0 : String → β)
    (step : β → α → β) (l : List α) :
    (groupFold keyOf init0 step l).map Prod.fst = distinctList (l.map keyOf) := by
  rw [groupFold_eq, List.map_map]
  simp [Function.comp_def]

theorem lookup_map_graph (g : String → β) (K : List String) (k : String) :
    List.lookup k (K.map (fun k' => (k', g k')))
      = if k ∈ K then some (g k) else none := by
  induction K with
  | nil => rfl
  | cons k' ks ih =>
    by_cases h : k = k'
    · subst h; simp [List.lookup]
    · have hbeq : (k == k') = false := beq_eq_false_iff_ne.2 h
      simp [List.lookup, hbeq, ih, List.mem_cons, h]

theorem groupFold_lookup (keyOf : α → String) (init0 : String → β)
    (step : β → α → β) (l : List α) (k : String) :
    List.lookup k (groupFold keyOf init0 step l)
      = if k ∈ l.map keyOf
        then some ((l.filter (fun x => keyOf x = k)).foldl step (init0 k))
        else none := by
  rw [groupFold_eq, lookup_map_graph]
  simp [mem_distinctList]

theorem foldl_count_eq (l : List α) (n : Nat) :
    l.foldl (fun m (_ : α) => m + 1) n = n + l.length := by
  induction l generalizing n with
  | nil => simp
  | cons x xs ih => simp [ih]; omega

theorem foldl_source_eq (l : List Session) (a : Nat) (us : List String) :
    l.foldl (fun p s => (p.1 + 1, insertIfAbsent p.2 s.user_id)) (a, us)
      = (a + l.length, l.foldl (fun acc s => insertIfAbsent acc s.user_id) us) := by
  induction l generalizing a us with
  | nil => simp
  | cons x xs ih =>
    simp only [List.foldl_cons, ih, List.length_cons]
    have h : a + 1 + xs.length = a + (xs.length + 1) := by omega
    rw [h]

theorem foldl_dateStep_eq (l : List Session) (p : Nat × Nat × Nat) :
    l.foldl Traffic.dateStep p
      = (p.1 + l.length,
         p.2.1 + l.countP (fun s => s.device_type.map Traffic.toLowerStr = some "desktop"),
         p.2.2 + l.countP (fun s => s.device_type.map Traffic.toLowerStr = some "mobile")) := by
  induction l generalizing p with
  | nil => simp
  | cons x xs ih =>
    by_cases hd : x.device_type.map Traffic.toLowerStr = some "desktop"
    all_goals by_cases hm : x.device_type.map Traffic.toLowerStr = some "mobile"
    all_goals
      simp only [List.foldl_cons, ih, Traffic.dateStep, List.countP_cons,
        List.length_cons, Prod.mk.injEq, hd, hm, decide_True, decide_False,
        Bool.false_eq_true, if_true, if_false, decide_eq_true_eq]
    all_goals omega

/-- Summing a measure of the bucket payloads: one upsert step raises the sum
by exactly the measure increment of one `step`. -/
theorem sum_map_upsertG (keyOf : α → String) (init0 : String → β)
    (step : β → α → β) (μ : β → Nat)
    (h0 : ∀ k x, μ (step (init0 k) x) = 1) (h1 : ∀ b x, μ (step b x) = μ b + 1)
    (acc : List (String × β)) (x : α) :
    ((upsertG keyOf init0 step acc x).map (fun p => μ p.2)).sum
      = ((acc.map (fun p => μ p.2)).sum) + 1 := by
  induction acc with
  | nil => simp [upsertG, h0]
  | cons p rest ih =>
    obtain ⟨k, b⟩ := p
    by_cases hk : keyOf x = k
    · simp [upsertG, hk, h1]; omega
    · simp [upsertG, hk, ih]; omega

theorem sum_map_groupFold (keyOf : α → String) (init0 : String → β)
    (step : β → α → β) (μ : β → Nat)
    (h0 : ∀ k x, μ (step (init0 k) x) = 1) (h1 : ∀ b x, μ (step b x) = μ b + 1)
    (l : List α) :
    ((groupFold keyOf init0 step l).map (fun p => μ p.2)).sum = l.length := by
  suffices h : ∀ acc : List (String × β),
      ((l.foldl (upsertG keyOf init0 step) acc).map (fun p => μ p.2)).sum
        = ((acc.map (fun p => μ p.2)).sum) + l.length by
    simpa using h []
  induction l with
  | nil => simp
  | cons x xs ih =>
    intro acc
    simp only [List.foldl_cons, ih, sum_map_upsertG keyOf init0 step μ h0 h1,
      List.length_cons]
    omega

/-- An entry predicate preserved by `step` and satisfied by fresh buckets is
an invariant of the grouping reduce. -/
theorem groupFold_forall (keyOf : α → String) (init0 : String → β)
    (step : β → α → β) (P : String × β → Prop)
    (hfresh : ∀ x, P (keyOf x, step (init0 (keyOf x)) x))
    (hstep : ∀ k b x, P (k, b) → P (k, step b x))
    (l : List α) : ∀ p ∈ groupFold keyOf init0 step l, P p := by
  suffices h : ∀ acc : List (String × β), (∀ p ∈ acc, P p) →
      ∀ p ∈ l.foldl (upsertG keyOf init0 step) acc, P p by
    exact h [] (by simp)
  induction l with
  | nil => intro acc hacc; simpa using hacc
  | cons x xs ih =>
    intro acc hacc
    rw [List.foldl_cons]
    refine ih _ (fun p hp => ?_)
    clear ih
    induction acc with
    | nil =>
      simp only [upsertG, List.mem_singleton] at hp
      exact hp ▸ hfresh x
    | cons q rest iha =>
      obtain ⟨k, b⟩ := q
      by_cases hk : keyOf x = k
      · simp only [upsertG, if_pos hk, List.mem_cons] at hp
        rcases hp with rfl | hp
        · exact hstep _ _ _ (hacc (k, b) (by simp))
        · exact hacc _ (List.mem_cons_of_mem _ hp)
      · simp only [upsertG, if_neg hk, List.mem_cons] at hp
        rcases hp with rfl | hp
        · exact hacc _ (by simp)
        · exact iha (fun q hq => hacc q (List.mem_cons_of_mem _ hq)) hp

/-! ### The landing-page reduce -/

theorem landing_foldl (pvs : List Pageview) (seen : List String)
    (pages : List (String × Nat)) :
    pvs.foldl Traffic.landingStep (seen, pages)
      = (pvs.foldl (fun acc pv => insertIfAbsent acc pv.website_session_id) seen,
         (Traffic.firstHits pvs seen).foldl
           (fun pg pv => upsertG id (fun _ => 0) (fun n _ => n + 1) pg (Traffic.urlOf pv))
           pages) := by
  induction pvs generalizing seen pages with
  | nil => rfl
  | cons pv rest ih =>
    by_cases h : pv.website_session_id ∈ seen
    · simp [Traffic.landingStep, Traffic.firstHits, h, insertIfAbsent, ih]
    · simp [Traffic.landingStep, Traffic.firstHits, h, insertIfAbsent, ih]

theorem upsertG_id_urlOf (pg : List (String × Nat)) (pv : Pageview) :
    upsertG id (fun _ => 0) (fun n _ => n + 1) pg (Traffic.urlOf pv)
      = upsertG Traffic.urlOf (fun _ => 0) (fun n _ => n + 1) pg pv := by
  induction pg with
  | nil => rfl
  | cons p rest ih =>
    obtain ⟨k, b⟩ := p
    simp only [upsertG, id_eq, ih]

theorem firstHits_map_sid (pvs : List Pageview) :
    ∀ seen, seen ++ (Traffic.firstHits pvs seen).map (·.website_session_id)
      = pvs.foldl (fun acc pv => insertIfAbsent acc pv.website_session_id) seen := by
  induction pvs with
  | nil => simp [Traffic.firstHits]
  | cons q rest ih =>
    intro seen
    by_cases h : q.website_session_id ∈ seen
    · simp [Traffic.firstHits, h, insertIfAbsent, ih]
    · simp only [Traffic.firstHits, if_neg h, List.map_cons, List.foldl_cons]
      rw [show insertIfAbsent seen q.website_session_id
            = seen ++ [q.website_session_id] from by simp [insertIfAbsent, h]]
      rw [← ih (seen ++ [q.website_session_id])]
      simp

theorem landingPages_eq (pvs : List Pageview) :
    Traffic.landingPages pvs
      = (distinctList (pvs.map (·.website_session_id)),
         groupFold Traffic.urlOf (fun _ => 0) (fun n _ => n + 1)
           (Traffic.firstHits pvs [])) := by
  unfold Traffic.landingPages
  rw [landing_foldl]
  congr 1
  · rw [distinctList, List.foldl_map]
  · rw [groupFold]
    have h : ∀ pg, (Traffic.firstHits pvs []).foldl
        (fun pg pv => upsertG id (fun _ => 0) (fun n _ => n + 1) pg (Traffic.urlOf pv)) pg
        = (Traffic.firstHits pvs []).foldl
            (upsertG Traffic.urlOf (fun _ => 0) (fun n _ => n + 1)) pg := by
      intro pg
      induction Traffic.firstHits pvs [] generalizing pg with
      | nil => rfl
      | cons x xs ih => simp only [List.foldl_cons, upsertG_id_urlOf, ih]
    exact h []

theorem firstHits_sid_and_find (pvs : List Pageview) :
    ∀ seen, ∀ pv ∈ Traffic.firstHits pvs seen,
      pv.website_session_id ∉ seen ∧
      pvs.find? (fun q => q.website_session_id = pv.website_session_id) = some pv := by
  induction pvs with
  | nil => simp [Traffic.firstHits]
  | cons q rest ih =>
    intro seen pv hpv
    by_cases h : q.website_session_id ∈ seen
    · rw [Traffic.firstHits, if_pos h] at hpv
      obtain ⟨hnot, hfind⟩ := ih seen pv hpv
      have hne : ¬ (q.website_session_id = pv.website_session_id) := fun he =>
        hnot (he ▸ h)
      refine ⟨hnot, ?_⟩
      rw [List.find?_cons_of_neg _ (by simpa using hne)]
      exact hfind
    · rw [Traffic.firstHits, if_neg h] at hpv
      rcases List.mem_cons.1 hpv with rfl | hpv
      · exact ⟨h, by rw [List.find?_cons_of_pos _ (by simp)]⟩
      · obtain ⟨hnot, hfind⟩ := ih _ pv hpv
        have hq : ¬ (q.website_session_id = pv.website_session_id) := fun he => by
          refine hnot ?_
          rw [← he]
          simp
        refine ⟨fun hin => hnot (by simp [hin]), ?_⟩
        rw [List.find?_cons_of_neg _ (by simpa using hq)]
        exact hfind

theorem specLandingCount_eq (u : String) (pvs : List Pageview) :
    Traffic.specLandingCount u pvs
      = (Traffic.firstHits pvs []).countP (fun pv => Traffic.urlOf pv = u) := by
  unfold Traffic.specLandingCount
  rw [← List.countP_eq_length_filter]
  have hsid : distinctList (pvs.map (·.website_session_id))
      = (Traffic.firstHits pvs []).map (·.website_session_id) := by
    rw [distinctList, List.foldl_map]
    simpa using (firstHits_map_sid pvs []).symm
  rw [hsid, List.countP_map]
  refine List.countP_congr (fun pv hpv => ?_)
  obtain ⟨-, hfind⟩ := firstHits_sid_and_find pvs [] pv hpv
  simp [Function.comp, hfind]

/-! ### Canonical date keys -/

theorem char_toNat_inj {c₁ c₂ : Char} (h : c₁.toNat = c₂.toNat) : c₁ = c₂ :=
  Char.ext (UInt32.toNat.inj h)

theorem isDigitChar_bounds {c : Char} (h : Traffic.isDigitChar c = true) :
    48 ≤ c.toNat ∧ c.toNat ≤ 57 := by
  simpa [Traffic.isDigitChar] using h

theorem daysInMonth_le (y m : Nat) : Traffic.daysInMonth y m ≤ 31 := by
  unfold Traffic.daysInMonth
  split
  · split <;> omega
  · split <;> omega

theorem isCanonicalDate_inj {l₁ l₂ : List Char}
    (h₁ : Traffic.isCanonicalDate l₁ = true)
    (h₂ : Traffic.isCanonicalDate l₂ = true)
    (hv : Traffic.dateKeyVal l₁ = Traffic.dateKeyVal l₂) : l₁ = l₂ := by
  unfold Traffic.isCanonicalDate at h₁ h₂
  split at h₁
  case h_2 => exact absurd h₁ (by simp)
  case h_1 a1 a2 a3 a4 b1 c1 c2 b2 e1 e2 =>
  split at h₂
  case h_2 => exact absurd h₂ (by simp)
  case h_1 f1 f2 f3 f4 g1 j1 j2 g2 p1 p2 =>
  simp only [Bool.and_eq_true, beq_iff_eq, decide_eq_true_eq, and_assoc] at h₁ h₂
  obtain ⟨hA1, hA2, hA3, hA4, hB1, hB2, hC1, hC2, hE1, hE2, hq1, hq2, hq3, hq4⟩ := h₁
  obtain ⟨hF1, hF2, hF3, hF4, hG1, hG2, hJ1, hJ2, hP1, hP2, hs1, hs2, hs3, hs4⟩ := h₂
  subst hB1; subst hB2; subst hG1; subst hG2
  simp only [Traffic.dateKeyVal] at hv
  obtain ⟨v1, w1⟩ := isDigitChar_bounds hA1
  obtain ⟨v2, w2⟩ := isDigitChar_bounds hA2
  obtain ⟨v3, w3⟩ := isDigitChar_bounds hA3
  obtain ⟨v4, w4⟩ := isDigitChar_bounds hA4
  obtain ⟨v5, w5⟩ := isDigitChar_bounds hC1
  obtain ⟨v6, w6⟩ := isDigitChar_bounds hC2
  obtain ⟨v7, w7⟩ := isDigitChar_bounds hE1
  obtain ⟨v8, w8⟩ := isDigitChar_bounds hE2
  obtain ⟨x1, z1⟩ := isDigitChar_bounds hF1
  obtain ⟨x2, z2⟩ := isDigitChar_bounds hF2
  obtain ⟨x3, z3⟩ := isDigitChar_bounds hF3
  obtain ⟨x4, z4⟩ := isDigitChar_bounds hF4
  obtain ⟨x5, z5⟩ := isDigitChar_bounds hJ1
  obtain ⟨x6, z6⟩ := isDigitChar_bounds hJ2
  obtain ⟨x7, z7⟩ := isDigitChar_bounds hP1
  obtain ⟨x8, z8⟩ := isDigitChar_bounds hP2
  have hd2 : Traffic.digitVal e1 * 10 + Traffic.digitVal e2 ≤ 31 :=
    hq4.trans (daysInMonth_le _ _)
  have hn4 : Traffic.digitVal p1 * 10 + Traffic.digitVal p2 ≤ 31 :=
    hs4.trans (daysInMonth_le _ _)
  simp only [Traffic.digitVal] at hv hq1 hq2 hq3 hd2 hs1 hs2 hs3 hn4
  have heq : a1.toNat = f1.toNat ∧ a2.toNat = f2.toNat ∧ a3.toNat = f3.toNat ∧
      a4.toNat = f4.toNat ∧ c1.toNat = j1.toNat ∧ c2.toNat = j2.toNat ∧
      e1.toNat = p1.toNat ∧ e2.toNat = p2.toNat := by omega
  obtain ⟨q1, q2, q3, q4, q5, q6, q7, q8⟩ := heq
  rw [char_toNat_inj q1, char_toNat_inj q2, char_toNat_inj q3, char_toNat_inj q4,
    char_toNat_inj q5, char_toNat_inj q6, char_toNat_inj q7, char_toNat_inj q8]

theorem parseDateKey_inj {s₁ s₂ : String} {k : Nat}
    (h₁ : Traffic.parseDateKey s₁ = some k)
    (h₂ : Traffic.parseDateKey s₂ = some k) : s₁ = s₂ := by
  unfold Traffic.parseDateKey at h₁ h₂
  by_cases hc₁ : Traffic.isCanonicalDate s₁.data
  · by_cases hc₂ : Traffic.isCanonicalDate s₂.data
    · simp only [hc₁, hc₂, if_true, Option.some.injEq] at h₁ h₂
      have hd := isCanonicalDate_inj hc₁ hc₂ (h₁.trans h₂.symm)
      cases s₁; cases s₂; exact congrArg String.mk hd
    · simp [hc₂] at h₂
  · simp [hc₁] at h₁

/-! ### The timeline sort -/

theorem timelineData_ok (sessions : List Session)
    (hall : ∀ s ∈ sessions, s.created_at.isSome) :
    Traffic.timelineData sessions
      = .ok (List.insertionSort Traffic.dateLe
          ((Traffic.trafficByDateA sessions).map Traffic.mkDateEntry)) := by
  have h : sessions.all (fun s => s.created_at.isSome) = true :=
    List.all_eq_true.2 (fun s hs => hall s hs)
  simp [Traffic.timelineData, Traffic.trafficByDate, h, Except.map]

theorem trafficByDateA_dates (sessions : List Session) :
    ((Traffic.trafficByDateA sessions).map Traffic.mkDateEntry).map (·.date)
      = distinctList (sessions.map Traffic.dateKeyOf) := by
  rw [List.map_map,
    show ((fun e => e.date) ∘ Traffic.mkDateEntry
        : String × (Nat × Nat × Nat) → String) = Prod.fst from rfl]
  exact groupFold_keys _ _ _ _

theorem timeline_sorted_strict (sessions : List Session)
    (h : ∀ s ∈ sessions, (Traffic.parseDateKey (Traffic.dateKeyOf s)).isSome) :
    List.Pairwise (fun a b => Traffic.dateVal a.date < Traffic.dateVal b.date)
        (List.insertionSort Traffic.dateLe
          ((Traffic.trafficByDateA sessions).map Traffic.mkDateEntry)) ∧
      ((List.insertionSort Traffic.dateLe
          ((Traffic.trafficByDateA sessions).map Traffic.mkDateEntry)).map
            (·.date)).Nodup := by
  have hperm : (List.insertionSort Traffic.dateLe
      ((Traffic.trafficByDateA sessions).map Traffic.mkDateEntry)).Perm
        ((Traffic.trafficByDateA sessions).map Traffic.mkDateEntry) :=
    List.perm_insertionSort _ _
  have hdN : ((List.insertionSort Traffic.dateLe
      ((Traffic.trafficByDateA sessions).map Traffic.mkDateEntry)).map
        (·.date)).Nodup := by
    refine ((hperm.map _).nodup_iff).2 ?_
    rw [trafficByDateA_dates]
    exact distinctList_nodup _
  have hvalid : ∀ d ∈ (List.insertionSort Traffic.dateLe
      ((Traffic.trafficByDateA sessions).map Traffic.mkDateEntry)).map (·.date),
      (Traffic.parseDateKey d).isSome := by
    intro d hd
    have hd2 : d ∈ ((Traffic.trafficByDateA sessions).map Traffic.mkDateEntry).map
        (·.date) := (hperm.map (·.date)).subset hd
    rw [trafficByDateA_dates] at hd2
    rcases List.mem_map.1 (mem_distinctList.1 hd2) with ⟨s, hs, rfl⟩
    exact h s hs
  have hinj : ((List.insertionSort Traffic.dateLe
      ((Traffic.trafficByDateA sessions).map Traffic.mkDateEntry)).map
        (fun e => Traffic.dateVal e.date)).Nodup := by
    rw [show (fun (e : Traffic.DateEntry) => Traffic.dateVal e.date)
        = Traffic.dateVal ∘ (fun e => e.date) from rfl, ← List.map_map]
    refine hdN.map_on (fun x hx y hy hxy => ?_)
    obtain ⟨kx, hkx⟩ := Option.isSome_iff_exists.1 (hvalid x hx)
    obtain ⟨ky, hky⟩ := Option.isSome_iff_exists.1 (hvalid y hy)
    have hvx : Traffic.dateVal x = kx := by simp [Traffic.dateVal, hkx]
    have hvy : Traffic.dateVal y = ky := by simp [Traffic.dateVal, hky]
    rw [hvx, hvy] at hxy
    exact parseDateKey_inj hkx (hxy ▸ hky)
  have hsorted : List.Pairwise Traffic.dateLe (List.insertionSort Traffic.dateLe
      ((Traffic.trafficByDateA sessions).map Traffic.mkDateEntry)) :=
    List.sorted_insertionSort _ _
  have hne := List.pairwise_map.1 hinj
  exact ⟨(hsorted.and hne).imp (fun hab => lt_of_le_of_ne hab.1 hab.2), hdN⟩

theorem timelineData_perm_eq {s1 s2 : List Session} (hp : s1.Perm s2)
    (hd : ∀ s ∈ s1, s.created_at.isSome ∧
      (Traffic.parseDateKey (Traffic.dateKeyOf s)).isSome) :
    Traffic.timelineData s1 = Traffic.timelineData s2 := by
  have hd2 : ∀ s ∈ s2, s.created_at.isSome ∧
      (Traffic.parseDateKey (Traffic.dateKeyOf s)).isSome :=
    fun s hs => hd s (hp.mem_iff.2 hs)
  rw [timelineData_ok s1 (fun s hs => (hd s hs).1),
    timelineData_ok s2 (fun s hs => (hd2 s hs).1)]
  have hentry : ∀ k : String,
      (s2.filter (fun x => Traffic.dateKeyOf x = k)).foldl Traffic.dateStep (0, 0, 0)
        = (s1.filter (fun x => Traffic.dateKeyOf x = k)).foldl Traffic.dateStep
            (0, 0, 0) := by
    intro k
    rw [foldl_dateStep_eq, foldl_dateStep_eq,
      (hp.filter (fun x => decide (Traffic.dateKeyOf x = k))).length_eq,
      (hp.filter _).countP_eq, (hp.filter _).countP_eq]
  have hA : (Traffic.trafficByDateA s1).Perm (Traffic.trafficByDateA s2) := by
    unfold Traffic.trafficByDateA
    rw [groupFold_eq, groupFold_eq]
    have hmap : (distinctList (s2.map Traffic.dateKeyOf)).map
        (fun k => (k, (s2.filter (fun x => Traffic.dateKeyOf x = k)).foldl
          Traffic.dateStep (0, 0, 0)))
        = (distinctList (s2.map Traffic.dateKeyOf)).map
            (fun k => (k, (s1.filter (fun x => Traffic.dateKeyOf x = k)).foldl
              Traffic.dateStep (0, 0, 0))) :=
      List.map_congr_left (fun k _ => by rw [hentry k])
    rw [hmap]
    exact (distinctList_perm_of_perm (hp.map Traffic.dateKeyOf)).map _
  have htl : (List.insertionSort Traffic.dateLe
      ((Traffic.trafficByDateA s1).map Traffic.mkDateEntry)).Perm
        (List.insertionSort Traffic.dateLe
          ((Traffic.trafficByDateA s2).map Traffic.mkDateEntry)) :=
    ((List.perm_insertionSort _ _).trans (hA.map _)).trans
      (List.perm_insertionSort _ _).symm
  have hs1 := timeline_sorted_strict s1 (fun s hs => (hd s hs).2)
  have hs2 := timeline_sorted_strict s2 (fun s hs => (hd2 s hs).2)
  have hst1 : List.Sorted Traffic.dateLt (List.insertionSort Traffic.dateLe
      ((Traffic.trafficByDateA s1).map Traffic.mkDateEntry)) :=
    hs1.1.imp (fun hab => Or.inl hab)
  have hst2 : List.Sorted Traffic.dateLt (List.insertionSort Traffic.dateLe
      ((Traffic.trafficByDateA s2).map Traffic.mkDateEntry)) :=
    hs2.1.imp (fun hab => Or.inl hab)
  exact congrArg Except.ok (List.eq_of_perm_of_sorted htl hst1 hst2)

/-! ### Claim theorems -/

theorem bouncedSessions_eq_spec (pageviews : List Pageview) :
    Traffic.bouncedSessions pageviews = Traffic.specBouncedSessions pageviews := by
  unfold Traffic.bouncedSessions Traffic.specBouncedSessions
    Traffic.sessionPageviewCounts Traffic.pageviewCountOf
  rw [groupFold_eq, List.map_map, ← List.countP_eq_length_filter,
    ← List.countP_eq_length_filter, List.countP_map]
  refine List.countP_congr (fun k _ => ?_)
  simp only [Function.comp, foldl_count_eq, List.countP_eq_length_filter,
    Nat.zero_add, decide_eq_true_eq]

theorem bounceRate_le_of_le {sessions : List Session} {pageviews : List Pageview}
    (hb : Traffic.bouncedSessions pageviews ≤ Traffic.totalSessions sessions) :
    Traffic.bounceRate sessions pageviews ≤ 100 := by
  unfold Traffic.bounceRate
  split
  · rename_i ht
    have htq : (0 : ℚ) < (Traffic.totalSessions sessions : ℚ) := by
      exact_mod_cast ht
    have hbq : (Traffic.bouncedSessions pageviews : ℚ)
        ≤ (Traffic.totalSessions sessions : ℚ) := by exact_mod_cast hb
    calc (Traffic.bouncedSessions pageviews : ℚ)
          / (Traffic.totalSessions sessions : ℚ) * 100
        ≤ 1 * 100 := by
          refine mul_le_mul_of_nonneg_right ((div_le_one htq).2 hbq) (by norm_num)
      _ = 100 := by norm_num
  · norm_num

/-- C1 (amended): `bounceRate` is nonnegative, equals `0` when
`totalSessions = 0`, and equals `bouncedSessions / totalSessions * 100`
otherwise, where `bouncedSessions` counts the distinct `website_session_id`
values of the pageviews array having exactly one pageview — session ids
absent from the sessions array (orphaned pageviews) are counted too.  When
every pageview's session id does refer to some session, the rate lies in
`[0, 100]`. -/
theorem claim1_bounceRate_amended (sessions : List Session) (pageviews : List Pageview) :
    0 ≤ Traffic.bounceRate sessions pageviews
    ∧ (Traffic.totalSessions sessions = 0 → Traffic.bounceRate sessions pageviews = 0)
    ∧ (0 < Traffic.totalSessions sessions →
        Traffic.bounceRate sessions pageviews
          = (Traffic.bouncedSessions pageviews : ℚ)
              / (Traffic.totalSessions sessions : ℚ) * 100)
    ∧ Traffic.bouncedSessions pageviews = Traffic.specBouncedSessions pageviews
    ∧ ((∀ pv ∈ pageviews, ∃ s ∈ sessions, s.id = pv.website_session_id) →
        Traffic.bounceRate sessions pageviews ≤ 100) := by
  refine ⟨?_, ?_, ?_, bouncedSessions_eq_spec pageviews, ?_⟩
  · unfold Traffic.bounceRate
    split
    · positivity
    · exact le_refl 0
  · intro h
    simp [Traffic.bounceRate, h]
  · intro h
    simp [Traffic.bounceRate, h]
  · intro h
    refine bounceRate_le_of_le ?_
    rw [bouncedSessions_eq_spec]
    unfold Traffic.specBouncedSessions Traffic.totalSessions
    have hsub : (distinctList (pageviews.map (·.website_session_id))).filter
        (fun k => Traffic.pageviewCountOf k pageviews = 1) ⊆ sessions.map (·.id) := by
      intro k hk
      have hk2 : k ∈ distinctList (pageviews.map (·.website_session_id)) :=
        List.mem_of_mem_filter hk
      rcases List.mem_map.1 (mem_distinctList.1 hk2) with ⟨pv, hpv, rfl⟩
      rcases h pv hpv with ⟨s, hs, hsid⟩
      exact List.mem_map.2 ⟨s, hs, hsid⟩
    calc ((distinctList (pageviews.map (·.website_session_id))).filter
            (fun k => Traffic.pageviewCountOf k pageviews = 1)).length
        ≤ (sessions.map (·.id)).length :=
          nodup_subset_length ((distinctList_nodup _).filter _) hsub
      _ = sessions.length := List.length_map _ _

/-- C1 (counterexample): with one session and two orphaned single-pageview
session ids, `bounceRate = 200`, outside `[0, 100]`. -/
theorem claim1_bounceRate_counterexample :
    ¬ Traffic.bounceRate
        [⟨"s1", "u1", some "2012-03-19 08:00:00", some "desktop", "0", none, none⟩]
        [⟨"a", some "/home"⟩, ⟨"b", some "/home"⟩] ≤ 100 := by
  norm_num +decide [Traffic.bounceRate, Traffic.bouncedSessions,
    Traffic.sessionPageviewCounts, groupFold, upsertG, Traffic.totalSessions]

/-- C1 (witness): on a concrete input with referential integrity and one
session, the amended claim's bounds and formula hold. -/
theorem claim1_bounceRate_amended_witness :
    (0 : ℚ) ≤ Traffic.bounceRate
        [⟨"s1", "u1", some "2012-03-19 08:00:00", some "desktop", "0", none, none⟩]
        [⟨"s1", some "/home"⟩]
    ∧ Traffic.bounceRate
        [⟨"s1", "u1", some "2012-03-19 08:00:00", some "desktop", "0", none, none⟩]
        [⟨"s1", some "/home"⟩] ≤ 100
    ∧ Traffic.bounceRate [] [⟨"s1", some "/home"⟩] = 0 := by
  refine ⟨(claim1_bounceRate_amended _ _).1,
    (claim1_bounceRate_amended _ _).2.2.2.2 (by decide),
    (claim1_bounceRate_amended [] _).2.1 (by decide)⟩

/-- C2: every session lands in exactly one `deviceCounts` bucket, so the
bucket keys are distinct and the values sum to `totalSessions`. -/
theorem claim2_deviceCounts_sum (sessions : List Session) :
    ((Traffic.deviceCounts sessions).map (fun p => p.2)).sum
        = Traffic.totalSessions sessions
    ∧ ((Traffic.deviceCounts sessions).map Prod.fst).Nodup := by
  constructor
  · exact sum_map_groupFold _ _ _ (fun n => n) (fun _ _ => rfl) (fun _ _ => rfl) _
  · unfold Traffic.deviceCounts
    rw [groupFold_keys]
    exact distinctList_nodup _

/-- C3: when every session has a `created_at` whose date portion is a
canonical parseable date, `timelineData` succeeds, is sorted strictly
ascending by date, and has no duplicate dates. -/
theorem claim3_timeline_sorted (sessions : List Session)
    (h : ∀ s ∈ sessions, s.created_at.isSome ∧
      (Traffic.parseDateKey (Traffic.dateKeyOf s)).isSome) :
    ∃ tl, Traffic.timelineData sessions = .ok tl
      ∧ List.Pairwise (fun a b => Traffic.dateVal a.date < Traffic.dateVal b.date) tl
      ∧ (tl.map (·.date)).Nodup := by
  refine ⟨_, timelineData_ok sessions (fun s hs => (h s hs).1), ?_, ?_⟩
  · exact (timeline_sorted_strict sessions (fun s hs => (h s hs).2)).1
  · exact (timeline_sorted_strict sessions (fun s hs => (h s hs).2)).2

/-- C3 (witness): a concrete two-session input with valid distinct dates. -/
theorem claim3_timeline_sorted_witness :
    ∃ tl, Traffic.timelineData
        [⟨"s1", "u1", some "2012-03-19 08:00:00", some "desktop", "0", none, none⟩,
         ⟨"s2", "u2", some "2012-03-18 09:00:00", some "mobile", "1", none, none⟩]
          = .ok tl
      ∧ List.Pairwise (fun a b => Traffic.dateVal a.date < Traffic.dateVal b.date) tl
      ∧ (tl.map (·.date)).Nodup :=
  claim3_timeline_sorted _ (by decide)

/-- C4: the landing-page table counts, per URL, exactly the distinct session
ids whose first pageview in input order (with the `'/'` default) has that
URL, and `topLandingPages` is sorted descending by session count. -/
theorem claim4_topLandingPages (pageviews : List Pageview) :
    (∀ u, (List.lookup u (Traffic.landingPages pageviews).2).getD 0
        = Traffic.specLandingCount u pageviews)
    ∧ List.Pairwise Traffic.pageDesc (Traffic.topLandingPages pageviews) := by
  constructor
  · intro u
    rw [landingPages_eq, groupFold_lookup, specLandingCount_eq]
    by_cases hu : u ∈ (Traffic.firstHits pageviews []).map Traffic.urlOf
    · simp only [hu, if_true, Option.getD_some, foldl_count_eq, Nat.zero_add]
      exact (List.countP_eq_length_filter _ _).symm
    · simp only [hu, if_false, Option.getD_none]
      symm
      rw [List.countP_eq_zero]
      intro pv hpv
      simp only [decide_eq_true_eq]
      exact fun he => hu (he ▸ List.mem_map_of_mem _ hpv)
  · exact List.sorted_insertionSort _ _

/-- C5: `newSessions` and `returningSessions` are the counts of sessions with
`is_repeat_session` exactly `"0"` and `"1"`; any other value falls in neither
bucket, so the two buckets plus the rest partition `totalSessions`. -/
theorem claim5_newReturning_partition (sessions : List Session) :
    Traffic.newSessions sessions + Traffic.returningSessions sessions
        + (sessions.filter (fun s =>
            s.is_repeat_session ≠ "0" ∧ s.is_repeat_session ≠ "1")).length
      = Traffic.totalSessions sessions
    ∧ Traffic.newSessions sessions + Traffic.returningSessions sessions
        ≤ Traffic.totalSessions sessions := by
  have key : Traffic.newSessions sessions + Traffic.returningSessions sessions
      + (sessions.filter (fun s =>
          s.is_repeat_session ≠ "0" ∧ s.is_repeat_session ≠ "1")).length
      = Traffic.totalSessions sessions := by
    unfold Traffic.newSessions Traffic.returningSessions Traffic.totalSessions
    induction sessions with
    | nil => rfl
    | cons x xs ih =>
      simp only [List.filter_cons, List.length_cons]
      by_cases h0 : x.is_repeat_session = "0"
      · rw [if_pos (by simp [h0]), if_neg (by simp [h0]), if_neg (by simp [h0])]
        simp only [List.length_cons]
        omega
      · by_cases h1 : x.is_repeat_session = "1"
        · rw [if_neg (by simp [h0]), if_pos (by simp [h1]), if_neg (by simp [h1])]
          simp only [List.length_cons]
          omega
        · rw [if_neg (by simp [h0]), if_neg (by simp [h1]),
            if_pos (by simp [h0, h1])]
          simp only [List.length_cons]
          omega
  exact ⟨key, by omega⟩

/-- C10: every session is assigned to exactly one `sourceData` bucket, so
the per-bucket session counts sum to `totalSessions`, and each bucket's
distinct-user count is at most its session count. -/
theorem claim10_sourceData_invariants (sessions : List Session) :
    ((Traffic.sourceData sessions).map (fun e => e.sessions)).sum
        = Traffic.totalSessions sessions
    ∧ ∀ e ∈ Traffic.sourceData sessions, e.users ≤ e.sessions := by
  constructor
  · unfold Traffic.sourceData
    rw [List.map_map]
    exact sum_map_groupFold _ _ _ (fun b : Nat × List String => b.1)
      (fun _ _ => rfl) (fun _ _ => rfl) _
  · intro e he
    rcases List.mem_map.1 he with ⟨p, hp, rfl⟩
    have := groupFold_forall Traffic.sourceOf (fun _ => (0, []))
      (fun p s => (p.1 + 1, insertIfAbsent p.2 s.user_id))
      (fun q => q.2.2.length ≤ q.2.1)
      (fun x => by simp [insertIfAbsent])
      (by
        intro k b x hb
        exact le_trans (insertIfAbsent_length_le b.2 x.user_id)
          (by simp only at hb ⊢; omega))
      sessions p hp
    simpa using this

/-- C10 (witness): the invariants at a concrete two-session input sharing a
source. -/
theorem claim10_sourceData_invariants_witness :
    ((Traffic.sourceData
        [⟨"s1", "u1", some "2012-03-19 08:00:00", some "desktop", "0", some "gsearch", none⟩,
         ⟨"s2", "u1", some "2012-03-18 09:00:00", some "mobile", "1", some "gsearch", none⟩]).map
          (fun e => e.sessions)).sum = 2
    ∧ (Traffic.sourceData
        [⟨"s1", "u1", some "2012-03-19 08:00:00", some "desktop", "0", some "gsearch", none⟩,
         ⟨"s2", "u1", some "2012-03-18 09:00:00", some "mobile", "1", some "gsearch", none⟩]).all
          (fun e => e.users ≤ e.sessions) := by
  refine ⟨(claim10_sourceData_invariants _).1, ?_⟩
  rw [List.all_eq_true]
  intro e he
  simpa using (claim10_sourceData_invariants _).2 e he

/-- C6: the refund rate is the guarded ratio: `totalRefunds / totalRevenue`
when `totalRevenue > 0` and `0` when `totalRevenue = 0` (regardless of
`totalRefunds`), so the division is never taken with a zero divisor; over
`ℚ` no `NaN`/`Infinity` value exists. -/
theorem claim6_refundRate (orders : List Dashboard.Order)
    (refunds : List Dashboard.Refund) :
    (0 < Dashboard.calculateTotalRevenue orders →
      Dashboard.calculateRefundRate orders refunds
        = Dashboard.calculateTotalRefunds refunds
            / Dashboard.calculateTotalRevenue orders)
    ∧ (Dashboard.calculateTotalRevenue orders = 0 →
        Dashboard.calculateRefundRate orders refunds = 0) := by
  constructor
  · intro h
    simp [Dashboard.calculateRefundRate, h]
  · intro h
    simp [Dashboard.calculateRefundRate, h]

/-- C6 (witness): at one order of amount `1`, the rate is the ratio; at no
orders, the rate is `0`. -/
theorem claim6_refundRate_witness :
    Dashboard.calculateRefundRate [⟨1⟩] [⟨1⟩]
        = Dashboard.calculateTotalRefunds [⟨1⟩] / Dashboard.calculateTotalRevenue [⟨1⟩]
    ∧ Dashboard.calculateRefundRate [] [⟨1⟩] = 0 :=
  ⟨(claim6_refundRate [⟨1⟩] [⟨1⟩]).1 (by simp [Dashboard.calculateTotalRevenue]),
   (claim6_refundRate [] [⟨1⟩]).2 rfl⟩

/-- C7 (counterexample): the traffic metric computation of `Traffic.jsx` has
no `try`/`catch` boundary: on a session whose `created_at` is absent the
whole computation is an escaping `TypeError`, not a success and not a zeroed
fallback. -/
theorem claim7_boundary_counterexample :
    Traffic.calculateMetrics [⟨"x", "u", none, none, "0", none, none⟩] []
      = .error "TypeError: cannot read properties of undefined" := rfl

/-- C7 (amended): the metric computations of `useDashBoardData.js` are each
wrapped in a boundary that yields either the computed value or the
zeroed/empty fallback — never a propagating error; the traffic computation
of `Traffic.jsx` has no such boundary (see the counterexample) and the
boundaries log rather than set the hook's error state. -/
theorem claim7_boundaries_amended :
    (∀ comp : Except String Dashboard.FinMetrics,
      (∃ m, comp = .ok m ∧ Dashboard.metricsBoundary comp = m)
      ∨ (Dashboard.metricsBoundary comp = Dashboard.metricsFallback
          ∧ Dashboard.metricsFallback.totalOrders = 0
          ∧ Dashboard.metricsFallback.totalRevenue = 0
          ∧ Dashboard.metricsFallback.totalRefunds = 0
          ∧ Dashboard.metricsFallback.refundRate = 0
          ∧ Dashboard.metricsFallback.aov = 0
          ∧ Dashboard.metricsFallback.netRevenue = 0))
    ∧ (∀ (γ : Type) (comp : Except String (List γ)),
        (∃ l, comp = .ok l ∧ Dashboard.aggBoundary comp = l)
        ∨ Dashboard.aggBoundary comp = []) := by
  constructor
  · intro comp
    cases comp with
    | ok m => exact Or.inl ⟨m, rfl, rfl⟩
    | error e => exact Or.inr ⟨rfl, rfl, rfl, rfl, rfl, rfl, rfl⟩
  · intro γ comp
    cases comp with
    | ok l => exact Or.inl ⟨l, rfl, rfl⟩
    | error e => exact Or.inr rfl

/-- C8: the row cap is one shared constant `LIMIT_ROWS = 500` applied to all
six raw arrays before cleaning: each limited array is the `take`-prefix of
its raw array when the input is an array, is empty when it is not, and never
exceeds 500 rows. -/
theorem claim8_rowCap (o : Option (List α₁)) (i : Option (List α₂))
    (r : Option (List α₃)) (p : Option (List α₄)) (s : Option (List α₅))
    (v : Option (List α₆)) :
    (Dashboard.limitSix o i r p s v
      = (Dashboard.limitRows o, Dashboard.limitRows i, Dashboard.limitRows r,
         Dashboard.limitRows p, Dashboard.limitRows s, Dashboard.limitRows v))
    ∧ (∀ (γ : Type) (raw : Option (List γ)),
        (Dashboard.limitRows raw).length ≤ Dashboard.LIMIT_ROWS
        ∧ (∀ l, raw = some l →
            Dashboard.limitRows raw = l.take Dashboard.LIMIT_ROWS
            ∧ ∃ t, l = Dashboard.limitRows raw ++ t)
        ∧ (raw = none → Dashboard.limitRows raw = []))
    ∧ Dashboard.LIMIT_ROWS = 500 := by
  refine ⟨rfl, ?_, rfl⟩
  intro γ raw
  refine ⟨?_, ?_, ?_⟩
  · cases raw with
    | none => simp [Dashboard.limitRows]
    | some l =>
      simp only [Dashboard.limitRows, List.length_take]
      omega
  · intro l hl
    subst hl
    exact ⟨rfl, l.drop Dashboard.LIMIT_ROWS, (List.take_append_drop _ _).symm⟩
  · intro hl
    subst hl
    rfl

/-- C8 (witness): a three-row array input is returned whole as its own
prefix, and a non-array input yields the empty array. -/
theorem claim8_rowCap_witness :
    Dashboard.limitRows (some [1, 2, 3]) = [1, 2, 3].take Dashboard.LIMIT_ROWS
    ∧ (∃ t, [1, 2, 3] = Dashboard.limitRows (some [1, 2, 3]) ++ t)
    ∧ Dashboard.limitRows (none : Option (List Nat)) = [] := by
  have h := (claim8_rowCap (some [1, 2, 3]) (none : Option (List Nat))
    (none : Option (List Nat)) (none : Option (List Nat)) (none : Option (List Nat))
    (none : Option (List Nat))).2.1 Nat (some [1, 2, 3])
  have h2 := (claim8_rowCap (some [1, 2, 3]) (none : Option (List Nat))
    (none : Option (List Nat)) (none : Option (List Nat)) (none : Option (List Nat))
    (none : Option (List Nat))).2.1 Nat (none : Option (List Nat))
  exact ⟨(h.2.1 [1, 2, 3] rfl).1, (h.2.1 [1, 2, 3] rfl).2, h2.2.2 rfl⟩

theorem sourceData_perm {s1 s2 : List Session} (hp : s1.Perm s2) :
    (Traffic.sourceData s1).Perm (Traffic.sourceData s2) := by
  unfold Traffic.sourceData Traffic.trafficBySource
  rw [groupFold_eq, groupFold_eq, List.map_map, List.map_map]
  have hfun : ∀ k : String,
      ((fun p : String × (Nat × List String) =>
          (⟨p.1, p.2.1, p.2.2.length⟩ : Traffic.SourceEntry))
        ∘ (fun k => (k, (s2.filter (fun x => Traffic.sourceOf x = k)).foldl
            (fun p s => (p.1 + 1, insertIfAbsent p.2 s.user_id)) (0, [])))) k
      = ((fun p : String × (Nat × List String) =>
          (⟨p.1, p.2.1, p.2.2.length⟩ : Traffic.SourceEntry))
        ∘ (fun k => (k, (s1.filter (fun x => Traffic.sourceOf x = k)).foldl
            (fun p s => (p.1 + 1, insertIfAbsent p.2 s.user_id)) (0, [])))) k := by
    intro k
    simp only [Function.comp_apply, foldl_source_eq, Nat.zero_add]
    have hlen : (s2.filter (fun x => decide (Traffic.sourceOf x = k))).length
        = (s1.filter (fun x => decide (Traffic.sourceOf x = k))).length :=
      (hp.filter _).length_eq.symm
    have husers : ((s2.filter (fun x => decide (Traffic.sourceOf x = k))).foldl
          (fun acc s => insertIfAbsent acc s.user_id) []).length
        = ((s1.filter (fun x => decide (Traffic.sourceOf x = k))).foldl
            (fun acc s => insertIfAbsent acc s.user_id) []).length := by
      rw [show ∀ l : List Session, l.foldl (fun acc s => insertIfAbsent acc s.user_id) []
          = distinctList (l.map (·.user_id)) from
            fun l => by rw [distinctList, List.foldl_map],
        show ∀ l : List Session, l.foldl (fun acc s => insertIfAbsent acc s.user_id) []
          = distinctList (l.map (·.user_id)) from
            fun l => by rw [distinctList, List.foldl_map]]
      exact distinctList_length_of_perm (((hp.filter _).symm).map _)
    simp [hlen, husers]
  have hmap := List.map_congr_left
    (fun k (_ : k ∈ distinctList (s2.map Traffic.sourceOf)) => hfun k)
  rw [hmap]
  exact (distinctList_perm_of_perm (hp.map Traffic.sourceOf)).map _

theorem campaignData_perm {s1 s2 : List Session} (hp : s1.Perm s2) :
    (Traffic.campaignData s1).Perm (Traffic.campaignData s2) := by
  unfold Traffic.campaignData Traffic.trafficByCampaign
  rw [groupFold_eq, groupFold_eq, List.map_map, List.map_map]
  have hfun : ∀ k : String,
      ((fun p : String × Nat => (⟨p.1, p.2⟩ : Traffic.CampaignEntry))
        ∘ (fun k => (k, (s2.filter (fun x => Traffic.campaignOf x = k)).foldl
            (fun n _ => n + 1) 0))) k
      = ((fun p : String × Nat => (⟨p.1, p.2⟩ : Traffic.CampaignEntry))
        ∘ (fun k => (k, (s1.filter (fun x => Traffic.campaignOf x = k)).foldl
            (fun n _ => n + 1) 0))) k := by
    intro k
    simp only [Function.comp_apply, foldl_count_eq, Nat.zero_add]
    rw [(hp.filter (fun x => decide (Traffic.campaignOf x = k))).length_eq]
  have hmap := List.map_congr_left
    (fun k (_ : k ∈ distinctList (s2.map Traffic.campaignOf)) => hfun k)
  rw [hmap]
  exact (distinctList_perm_of_perm (hp.map Traffic.campaignOf)).map _

/-- C9: the traffic computation is order-independent in the sessions array:
permuting sessions (pageviews fixed) leaves `totalSessions`, `uniqueUsers`,
the `deviceCounts` mapping, `newSessions`, `returningSessions`, `bounceRate`,
`avgPagesPerSession` and `timelineData` equal, and `sourceData` /
`campaignData` equal up to reordering of their entries (stated for sessions
with parseable dates, the regime in which the timeline sort is
deterministic). -/
theorem claim9_sessions_perm_invariance (s1 s2 : List Session)
    (pageviews : List Pageview) (hp : s1.Perm s2)
    (hd : ∀ s ∈ s1, s.created_at.isSome ∧
      (Traffic.parseDateKey (Traffic.dateKeyOf s)).isSome) :
    Traffic.totalSessions s1 = Traffic.totalSessions s2
    ∧ Traffic.uniqueUsers s1 = Traffic.uniqueUsers s2
    ∧ (∀ k, List.lookup k (Traffic.deviceCounts s1)
        = List.lookup k (Traffic.deviceCounts s2))
    ∧ Traffic.newSessions s1 = Traffic.newSessions s2
    ∧ Traffic.returningSessions s1 = Traffic.returningSessions s2
    ∧ Traffic.bounceRate s1 pageviews = Traffic.bounceRate s2 pageviews
    ∧ Traffic.avgPagesPerSession s1 pageviews
        = Traffic.avgPagesPerSession s2 pageviews
    ∧ Traffic.timelineData s1 = Traffic.timelineData s2
    ∧ (Traffic.sourceData s1).Perm (Traffic.sourceData s2)
    ∧ (Traffic.campaignData s1).Perm (Traffic.campaignData s2) := by
  refine ⟨hp.length_eq, distinctList_length_of_perm (hp.map _), ?_, ?_, ?_, ?_, ?_,
    timelineData_perm_eq hp hd, sourceData_perm hp, campaignData_perm hp⟩
  · intro k
    unfold Traffic.deviceCounts
    rw [groupFold_lookup, groupFold_lookup]
    by_cases hk : k ∈ List.map Traffic.deviceOf s1
    · rw [if_pos hk, if_pos ((hp.map Traffic.deviceOf).mem_iff.1 hk),
        foldl_count_eq, foldl_count_eq,
        (hp.filter (fun x => decide (Traffic.deviceOf x = k))).length_eq]
    · rw [if_neg hk, if_neg (fun hx => hk ((hp.map Traffic.deviceOf).mem_iff.2 hx))]
  · unfold Traffic.newSessions
    exact (hp.filter _).length_eq
  · unfold Traffic.returningSessions
    exact (hp.filter _).length_eq
  · unfold Traffic.bounceRate Traffic.totalSessions
    rw [hp.length_eq]
  · unfold Traffic.avgPagesPerSession Traffic.totalSessions
    rw [hp.length_eq]

/-- C9 (witness): a concrete three-session permutation pair with valid dates
and a fixed pageviews array. -/
theorem claim9_sessions_perm_invariance_witness :
    Traffic.totalSessions
        [⟨"s1", "u1", some "2012-03-19 08:00:00", some "desktop", "0", some "gsearch", some "brand"⟩,
         ⟨"s2", "u2", some "2012-03-18 09:00:00", some "mobile", "1", none, none⟩,
         ⟨"s3", "u1", some "2012-03-19 10:00:00", none, "2", some "", some "x"⟩]
      = Traffic.totalSessions
        [⟨"s3", "u1", some "2012-03-19 10:00:00", none, "2", some "", some "x"⟩,
         ⟨"s1", "u1", some "2012-03-19 08:00:00", some "desktop", "0", some "gsearch", some "brand"⟩,
         ⟨"s2", "u2", some "2012-03-18 09:00:00", some "mobile", "1", none, none⟩]
    ∧ Traffic.timelineData
        [⟨"s1", "u1", some "2012-03-19 08:00:00", some "desktop", "0", some "gsearch", some "brand"⟩,
         ⟨"s2", "u2", some "2012-03-18 09:00:00", some "mobile", "1", none, none⟩,
         ⟨"s3", "u1", some "2012-03-19 10:00:00", none, "2", some "", some "x"⟩]
      = Traffic.timelineData
        [⟨"s3", "u1", some "2012-03-19 10:00:00", none, "2", some "", some "x"⟩,
         ⟨"s1", "u1", some "2012-03-19 08:00:00", some "desktop", "0", some "gsearch", some "brand"⟩,
         ⟨"s2", "u2", some "2012-03-18 09:00:00", some "mobile", "1", none, none⟩]
    ∧ (Traffic.sourceData
        [⟨"s1", "u1", some "2012-03-19 08:00:00", some "desktop", "0", some "gsearch", some "brand"⟩,
         ⟨"s2", "u2", some "2012-03-18 09:00:00", some "mobile", "1", none, none⟩,
         ⟨"s3", "u1", some "2012-03-19 10:00:00", none, "2", some "", some "x"⟩]).Perm
      (Traffic.sourceData
        [⟨"s3", "u1", some "2012-03-19 10:00:00", none, "2", some "", some "x"⟩,
         ⟨"s1", "u1", some "2012-03-19 08:00:00", some "desktop", "0", some "gsearch", some "brand"⟩,
         ⟨"s2", "u2", some "2012-03-18 09:00:00", some "mobile", "1", none, none⟩]) := by
  have h := claim9_sessions_perm_invariance
    [⟨"s1", "u1", some "2012-03-19 08:00:00", some "desktop", "0", some "gsearch", some "brand"⟩,
     ⟨"s2", "u2", some "2012-03-18 09:00:00", some "mobile", "1", none, none⟩,
     ⟨"s3", "u1", some "2012-03-19 10:00:00", none, "2", some "", some "x"⟩]
    [⟨"s3", "u1", some "2012-03-19 10:00:00", none, "2", some "", some "x"⟩,
     ⟨"s1", "u1", some "2012-03-19 08:00:00", some "desktop", "0", some "gsearch", some "brand"⟩,
     ⟨"s2", "u2", some "2012-03-18 09:00:00", some "mobile", "1", none, none⟩]
    [⟨"s1", some "/home"⟩] (by decide) (by decide)
  exact ⟨h.1, h.2.2.2.2.2.2.2.1, h.2.2.2.2.2.2.2.2.1⟩

end BearCart
